import Mathlib

/-!
Shallow embedding of the PhysikMA pendulum simulation core
(src/rk4.py, src/pendulum.py, src/pendulum3d.py, src/energy_utils.py)
in exact arithmetic, together with theorems checking the
natural-language specification against the code.

Machine floats are modelled by exact rationals/reals; `numpy` arrays of
samples are modelled by lists indexed over `List.range`, and the state
vectors by `Fin n → ℝ` (or pairs).  Each integration loop
`state = rk4_step(...)` becomes a primitive recursion over the sample
index, exactly mirroring the source loops.
-/

namespace PhysikMA

/-- One classical RK4 step, translated from `rk4_step` in src/rk4.py.
`f` is the derivative callback, `t` the current time, `s` the state
(scalar or vector: any module over the scalar field) and `h` the step
size.  Scalar multiplication `h • _` models numpy's scalar-times-array
product and `(2 : K)⁻¹ • _` models division of an array by the scalar 2. -/
def rk4_step {K σ : Type} [Field K] [AddCommGroup σ] [Module K σ]
    (f : K → σ → σ) (t : K) (s : σ) (h : K) : σ :=
  let k1 := h • f t s
  let k2 := h • f (t + h / 2) (s + (2 : K)⁻¹ • k1)
  let k3 := h • f (t + h / 2) (s + (2 : K)⁻¹ • k2)
  let k4 := h • f (t + h) (s + k3)
  s + (6 : K)⁻¹ • (k1 + (2 : K) • k2 + (2 : K) • k3 + k4)

/-- The derivative `f(t, x) = x` used by the spec's Stepper accuracy test. -/
def identDeriv : ℚ → ℚ → ℚ := fun _ x => x

/-- Iteration of `rk4_step` on `f(t,x) = x` from `x0 = 1` at `t0 = 0` with
step `h = 1/10`; sample `n` is the state after `n` steps (time advances by
`h` each step, although `f` ignores it). -/
def identIter : ℕ → ℚ
  | 0 => 1
  | n + 1 => rk4_step identDeriv ((n : ℚ) * (1 / 10)) (identIter n) (1 / 10)

open scoped Classical in
/-- Number of samples produced by `np.arange(0, t_final + h, h)` in exact
arithmetic: numpy returns `ceil((stop - start)/step)` grid values, here
`ceil((t_final + h)/h)`. -/
noncomputable def numSamples (t_final h : ℝ) : ℕ := (⌈(t_final + h) / h⌉).toNat

/-- The `i`-th value `i * h` of the grid `np.arange(0, t_final + h, h)`. -/
noncomputable def tGrid (h : ℝ) (i : ℕ) : ℝ := (i : ℝ) * h

namespace Pendulum

/-- The nested `derivative` closure in `run` (src/pendulum.py): state is
`(phi, omega)`, with `dphi/dt = omega` and
`domega/dt = -(g/L)*sin(phi) - air_resistance*omega*|omega|`. -/
noncomputable def derivative (L g b : ℝ) : ℝ → ℝ × ℝ → ℝ × ℝ :=
  fun _ s => (s.2, -(g / L) * Real.sin s.1 - b * s.2 * |s.2|)

/-- Total mechanical energy as computed inline in `run` (src/pendulum.py),
identical to `pendulum_energy` in src/energy_utils.py:
`0.5*L**2*omega**2 + g*L*(1 - cos(phi))`. -/
noncomputable def pendulum_energy (phi omega L g : ℝ) : ℝ :=
  0.5 * L ^ 2 * omega ^ 2 + g * L * (1 - Real.cos phi)

/-- State recorded at sample index `i` by the loop in `run`
(src/pendulum.py): seeded with `np.array([phi0, 0.0])` and advanced by
`rk4_step(derivative, t_values[i], state, h)`. -/
noncomputable def state (L phi0 g h b : ℝ) : ℕ → ℝ × ℝ
  | 0 => (phi0, 0)
  | i + 1 => rk4_step (derivative L g b) (tGrid h i) (state L phi0 g h b i) h

/-- Return value of the planar `run` (time, angle, angular speed, energy). -/
structure RunResult where
  t : List ℝ
  phi : List ℝ
  omega : List ℝ
  energy : List ℝ

/-- Function `run` from src/pendulum.py with plotting stripped (the arrays are
returned regardless of plotting). -/
noncomputable def run (L phi0 g h t_final b : ℝ) : RunResult where
  t := (List.range (numSamples t_final h)).map (tGrid h)
  phi := (List.range (numSamples t_final h)).map fun i => (state L phi0 g h b i).1
  omega := (List.range (numSamples t_final h)).map fun i => (state L phi0 g h b i).2
  energy := (List.range (numSamples t_final h)).map fun i =>
    pendulum_energy (state L phi0 g h b i).1 (state L phi0 g h b i).2 L g

end Pendulum

namespace Pendulum3D

/-- The keyword parameters shared by `run` and `run_cartesian` in
src/pendulum3d.py (plot/display flags stripped).  `b` is
`air_resistance`; `Fx, Fy, Fz` are `force_x, force_y, force_z`. -/
structure Params where
  L : ℝ
  theta0 : ℝ
  phi0 : ℝ
  theta_dot0 : ℝ
  phi_dot0 : ℝ
  g : ℝ
  h : ℝ
  t_final : ℝ
  b : ℝ
  Fx : ℝ
  Fy : ℝ
  Fz : ℝ

/-- Model of `np.arctan2 y x`: the argument of the complex number `x + i*y`. -/
noncomputable def atan2 (y x : ℝ) : ℝ :=
  Complex.arg (Complex.ofReal x + Complex.ofReal y * Complex.I)

/-- Function `spherical_energy` from src/energy_utils.py. -/
noncomputable def spherical_energy (theta theta_dot phi_dot L g : ℝ) : ℝ :=
  0.5 * L ^ 2 * (theta_dot ^ 2 + Real.sin theta ^ 2 * phi_dot ^ 2)
    + g * L * (1 - Real.cos theta)

/-- Initial Cartesian state built by `run_cartesian` (src/pendulum3d.py):
components 0-2 are the position `(x0, y0, z0)` converted from the spherical
initial conditions, components 3-5 the velocity `(vx0, vy0, vz0)` with the
impulse added directly. -/
noncomputable def cartesianInit (p : Params) : Fin 6 → ℝ :=
  ![p.L * Real.sin p.theta0 * Real.cos p.phi0,
    p.L * Real.sin p.theta0 * Real.sin p.phi0,
    -p.L * Real.cos p.theta0,
    p.L * (p.theta_dot0 * Real.cos p.theta0 * Real.cos p.phi0
      - p.phi_dot0 * Real.sin p.theta0 * Real.sin p.phi0) + p.Fx,
    p.L * (p.theta_dot0 * Real.cos p.theta0 * Real.sin p.phi0
      + p.phi_dot0 * Real.sin p.theta0 * Real.cos p.phi0) + p.Fy,
    -p.L * p.theta_dot0 * Real.sin p.theta0 + p.Fz]

open scoped Classical in
/-- The nested `derivative` closure in `run_cartesian`: unconstrained
acceleration `[0,0,-g] - ((|v|^2 - g*z)/L^2)*r`, minus `b*v*|v|` when the
`air_resistance` coefficient is truthy (nonzero). -/
noncomputable def cartesianDeriv (L g b : ℝ) : ℝ → (Fin 6 → ℝ) → Fin 6 → ℝ :=
  fun _ s =>
    let speed_sq := s 3 ^ 2 + s 4 ^ 2 + s 5 ^ 2
    let c := (speed_sq - g * s 2) / L ^ 2
    let drag := fun v : ℝ => if b ≠ 0 then b * v * Real.sqrt speed_sq else 0
    ![s 3, s 4, s 5,
      0 - c * s 0 - drag (s 3),
      0 - c * s 1 - drag (s 4),
      -g - c * s 2 - drag (s 5)]

/-- The per-step constraint enforcement in `run_cartesian`: re-normalize the
position onto the sphere of radius `L` (`r = L*r/|r|`) and subtract the
radial component of the velocity (`v -= (dot(r, v)/L**2)*r`, with the
already re-normalized `r`). -/
noncomputable def projectState (L : ℝ) (s : Fin 6 → ℝ) : Fin 6 → ℝ :=
  let n := Real.sqrt (s 0 ^ 2 + s 1 ^ 2 + s 2 ^ 2)
  let r0 := L * s 0 / n
  let r1 := L * s 1 / n
  let r2 := L * s 2 / n
  let d := (r0 * s 3 + r1 * s 4 + r2 * s 5) / L ^ 2
  ![r0, r1, r2, s 3 - d * r0, s 4 - d * r1, s 5 - d * r2]

/-- State recorded at sample index `i` by the loop in `run_cartesian`:
sample 0 is the raw initial state (no projection); each later sample is one
`rk4_step` followed by the constraint projection. -/
noncomputable def cartesianState (p : Params) : ℕ → Fin 6 → ℝ
  | 0 => cartesianInit p
  | i + 1 => projectState p.L
      (rk4_step (cartesianDeriv p.L p.g p.b) (tGrid p.h i) (cartesianState p i) p.h)

/-- The nested `calc_energy` closure in `run_cartesian`:
`0.5*(vx^2 + vy^2 + vz^2) + g*(z + L)`. -/
noncomputable def cartesianEnergy (g L : ℝ) (s : Fin 6 → ℝ) : ℝ :=
  0.5 * (s 3 ^ 2 + s 4 ^ 2 + s 5 ^ 2) + g * (s 2 + L)

/-- Return value of `run_cartesian`. -/
structure CartesianResult where
  t : List ℝ
  x : List ℝ
  y : List ℝ
  z : List ℝ
  vx : List ℝ
  vy : List ℝ
  vz : List ℝ
  energy : List ℝ

/-- Function `run_cartesian` from src/pendulum3d.py with plotting stripped. -/
noncomputable def run_cartesian (p : Params) : CartesianResult where
  t := (List.range (numSamples p.t_final p.h)).map (tGrid p.h)
  x := (List.range (numSamples p.t_final p.h)).map fun i => cartesianState p i 0
  y := (List.range (numSamples p.t_final p.h)).map fun i => cartesianState p i 1
  z := (List.range (numSamples p.t_final p.h)).map fun i => cartesianState p i 2
  vx := (List.range (numSamples p.t_final p.h)).map fun i => cartesianState p i 3
  vy := (List.range (numSamples p.t_final p.h)).map fun i => cartesianState p i 4
  vz := (List.range (numSamples p.t_final p.h)).map fun i => cartesianState p i 5
  energy := (List.range (numSamples p.t_final p.h)).map fun i =>
    cartesianEnergy p.g p.L (cartesianState p i)

/-- The nested `derivative` closure in the spherical `run`
(src/pendulum3d.py): state is `(theta, phi, theta_dot, phi_dot)`. -/
noncomputable def sphericalDeriv (L g b : ℝ) : ℝ → (Fin 4 → ℝ) → Fin 4 → ℝ :=
  fun _ s =>
    ![s 2, s 3,
      Real.sin (s 0) * Real.cos (s 0) * s 3 ^ 2 - g / L * Real.sin (s 0)
        - b * s 2 * |s 2|,
      -2 * s 2 * s 3 / Real.tan (s 0) - b * s 3 * |s 3|]

open scoped Classical in
/-- Initial spherical state of the non-delegated path of `run`, including
the impulse projection guarded by Python's
`if force_x or force_y or force_z` (truthy iff some component is nonzero). -/
noncomputable def sphericalInit (p : Params) : Fin 4 → ℝ :=
  if p.Fx ≠ 0 ∨ p.Fy ≠ 0 ∨ p.Fz ≠ 0 then
    ![p.theta0, p.phi0,
      p.theta_dot0 + (p.Fx * Real.cos p.theta0 * Real.cos p.phi0
        + p.Fy * Real.cos p.theta0 * Real.sin p.phi0
        + p.Fz * Real.sin p.theta0) / p.L,
      p.phi_dot0 + (-p.Fx * Real.sin p.phi0 + p.Fy * Real.cos p.phi0)
        / (p.L * Real.sin p.theta0)]
  else ![p.theta0, p.phi0, p.theta_dot0, p.phi_dot0]

/-- State recorded at sample index `i` by the non-delegated loop of `run`. -/
noncomputable def sphericalState (p : Params) : ℕ → Fin 4 → ℝ
  | 0 => sphericalInit p
  | i + 1 => rk4_step (sphericalDeriv p.L p.g p.b) (tGrid p.h i)
      (sphericalState p i) p.h

/-- Delegated-path conversion `theta = arccos(-z/L)` applied to Cartesian
sample `i` (src/pendulum3d.py, `run`). -/
noncomputable def convTheta (p : Params) (i : ℕ) : ℝ :=
  Real.arccos (-(cartesianState p i 2) / p.L)

/-- Delegated-path conversion `phi = atan2(y, x)` at Cartesian sample `i`. -/
noncomputable def convPsi (p : Params) (i : ℕ) : ℝ :=
  atan2 (cartesianState p i 1) (cartesianState p i 0)

/-- Delegated-path conversion of the polar angular velocity at sample `i`:
`(vx*cos(theta)*cos(phi) + vy*cos(theta)*sin(phi) - vz*sin(theta))/L`. -/
noncomputable def convThetaDot (p : Params) (i : ℕ) : ℝ :=
  (cartesianState p i 3 * Real.cos (convTheta p i) * Real.cos (convPsi p i)
    + cartesianState p i 4 * Real.cos (convTheta p i) * Real.sin (convPsi p i)
    - cartesianState p i 5 * Real.sin (convTheta p i)) / p.L

open scoped Classical in
/-- Delegated-path conversion of the azimuthal angular velocity at sample
`i`: masked to `0` unless `|sin(theta)| > 1e-12`. -/
noncomputable def convPsiDot (p : Params) (i : ℕ) : ℝ :=
  if 1e-12 < |Real.sin (convTheta p i)| then
    (-(cartesianState p i 3) * Real.sin (convPsi p i)
      + cartesianState p i 4 * Real.cos (convPsi p i))
      / (p.L * Real.sin (convTheta p i))
  else 0

/-- Return value of the spherical `run`; `warned` records whether the
non-fatal `RuntimeWarning` about the singular initial angle was issued. -/
structure SphericalResult where
  warned : Bool
  t : List ℝ
  theta : List ℝ
  phi : List ℝ
  theta_dot : List ℝ
  phi_dot : List ℝ
  energy : List ℝ

open scoped Classical in
/-- Function `run` from src/pendulum3d.py with plotting stripped.  When
`|sin(theta0)| < 1e-6` the whole integration is delegated to
`run_cartesian` (with a warning) and converted back pointwise; otherwise
the spherical equations are integrated directly. -/
noncomputable def run (p : Params) : SphericalResult :=
  if |Real.sin p.theta0| < 1e-6 then
    { warned := true
      t := (run_cartesian p).t
      theta := (List.range (numSamples p.t_final p.h)).map (convTheta p)
      phi := (List.range (numSamples p.t_final p.h)).map (convPsi p)
      theta_dot := (List.range (numSamples p.t_final p.h)).map (convThetaDot p)
      phi_dot := (List.range (numSamples p.t_final p.h)).map (convPsiDot p)
      energy := (run_cartesian p).energy }
  else
    { warned := false
      t := (List.range (numSamples p.t_final p.h)).map (tGrid p.h)
      theta := (List.range (numSamples p.t_final p.h)).map fun i => sphericalState p i 0
      phi := (List.range (numSamples p.t_final p.h)).map fun i => sphericalState p i 1
      theta_dot := (List.range (numSamples p.t_final p.h)).map fun i => sphericalState p i 2
      phi_dot := (List.range (numSamples p.t_final p.h)).map fun i => sphericalState p i 3
      energy := (List.range (numSamples p.t_final p.h)).map fun i =>
        spherical_energy (sphericalState p i 0) (sphericalState p i 2)
          (sphericalState p i 3) p.L p.g }

end Pendulum3D

/-- Concrete 3D parameter set with unit length, `theta0 = pi/4`, unit
initial polar velocity and an impulse `(0, 0, sqrt 2)`: its radial
component along the initial position is `-1`. -/
noncomputable def radialImpulseParams : Pendulum3D.Params :=
  ⟨1, Real.pi / 4, 0, 1, 0, 981 / 100, 1 / 100, 10, 0, 0, 0, Real.sqrt 2⟩

/-- Concrete 3D parameter set describing the bob at rest at the equator
(`theta0 = pi/2`) with `g = 0`, no drag and no impulse: an exact
equilibrium of the Cartesian dynamics. -/
noncomputable def equilibriumParams : Pendulum3D.Params :=
  ⟨1, Real.pi / 2, 0, 0, 0, 0, 1, 1, 0, 0, 0, 0⟩

/-- Helper: component 4 of a 6-vector literal. -/
@[simp] theorem vec6_at4 {α : Type} (a b c d e f : α) :
    (![a, b, c, d, e, f] : Fin 6 → α) 4 = e := rfl

/-- Helper: component 5 of a 6-vector literal. -/
@[simp] theorem vec6_at5 {α : Type} (a b c d e f : α) :
    (![a, b, c, d, e, f] : Fin 6 → α) 5 = f := rfl

/-- Helper: a single RK4 step on `f(t,x) = x` multiplies the state by the
exact rational `1 + h + h^2/2 + h^3/6 + h^4/24`. -/
theorem rk4_step_ident (t x h : ℚ) :
    rk4_step identDeriv t x h =
      (1 + h + h ^ 2 / 2 + h ^ 3 / 6 + h ^ 4 / 24) * x := by
  simp only [rk4_step, identDeriv, smul_eq_mul]
  ring

/-- Helper: closed form of the iterated RK4 run on `f(t,x) = x`. -/
theorem identIter_closed (n : ℕ) :
    identIter n = (265241 / 240000 : ℚ) ^ n := by
  induction n with
  | zero => rfl
  | succ n ih =>
      rw [identIter, rk4_step_ident, ih, pow_succ]
      ring

/-- Helper: zipping two maps over the same list is a map of the combined
function. -/
theorem zipWith_map_of_map {α β : Type} (c : β → β → β) (f g : α → β)
    (l : List α) :
    List.zipWith c (l.map f) (l.map g) = l.map fun a => c (f a) (g a) := by
  induction l with
  | nil => rfl
  | cons a l ih => simp [ih]

/-- Helper: in exact arithmetic the `np.arange(0, t_final + h, h)` sample
count is `ceil(t_final/h) + 1`. -/
theorem numSamples_eq (t_final h : ℝ) (hh : 0 < h) (ht : 0 ≤ t_final) :
    numSamples t_final h = (⌈t_final / h⌉).toNat + 1 := by
  unfold numSamples
  have hne : h ≠ 0 := ne_of_gt hh
  have hdiv : (t_final + h) / h = t_final / h + 1 := by
    field_simp
  rw [hdiv, Int.ceil_add_one, Int.toNat_add (Int.ceil_nonneg (by positivity)) one_pos.le]
  rfl

/-- Helper: the last grid sample is within one step of `t_final`. -/
theorem tGrid_last_close (t_final h : ℝ) (hh : 0 < h) (ht : 0 ≤ t_final) :
    |tGrid h (numSamples t_final h - 1) - t_final| < h := by
  rw [numSamples_eq t_final h hh ht, Nat.add_sub_cancel]
  have hc0 : (0 : ℤ) ≤ ⌈t_final / h⌉ := Int.ceil_nonneg (by positivity)
  unfold tGrid
  have hcast : ((⌈t_final / h⌉.toNat : ℕ) : ℝ) = ((⌈t_final / h⌉ : ℤ) : ℝ) := by
    exact_mod_cast Int.toNat_of_nonneg hc0
  rw [hcast]
  have h1 : t_final ≤ (⌈t_final / h⌉ : ℝ) * h := by
    rw [← div_le_iff₀ hh]
    exact Int.le_ceil _
  have h2 : (⌈t_final / h⌉ : ℝ) * h < t_final + h := by
    have hlt : (⌈t_final / h⌉ : ℝ) < t_final / h + 1 := Int.ceil_lt_add_one _
    have := mul_lt_mul_of_pos_right hlt hh
    have heq : (t_final / h + 1) * h = t_final + h := by
      field_simp
    linarith [heq ▸ this]
  rw [abs_of_nonneg (by linarith)]
  linarith

/-- Helper: head of a map over `List.range`. -/
theorem head_map_range {α : Type} (f : ℕ → α) (n : ℕ) (hn : 0 < n) :
    ((List.range n).map f).head? = some (f 0) := by
  cases n with
  | zero => omega
  | succ m =>
      rw [List.range_succ_eq_map]
      simp

/-- Helper: last element of a map over `List.range`. -/
theorem getLast_map_range {α : Type} (f : ℕ → α) (n : ℕ) (hn : 0 < n) :
    ((List.range n).map f).getLast? = some (f (n - 1)) := by
  cases n with
  | zero => omega
  | succ m =>
      rw [List.range_succ]
      simp

/-- Helper: the sample count is positive when `h > 0` and `t_final ≥ 0`. -/
theorem numSamples_pos (t_final h : ℝ) (hh : 0 < h) (ht : 0 ≤ t_final) :
    0 < numSamples t_final h := by
  unfold numSamples
  have hq : (0 : ℝ) < (t_final + h) / h := by positivity
  have hceil : 0 < ⌈(t_final + h) / h⌉ := Int.ceil_pos.mpr hq
  omega

/-- C2: for every derivative function `f`, time `t`, state `s` and step `h`,
`rk4_step f t s h` returns exactly `s + (k1 + 2*k2 + 2*k3 + k4)/6` where
`k1 = h*f(t, s)`, `k2 = h*f(t + h/2, s + k1/2)`, `k3 = h*f(t + h/2, s + k2/2)`
and `k4 = h*f(t + h, s + k3)`.  As a pure Lean function it is deterministic,
keeps no internal state and raises no error. -/
theorem c2_rk4_formula {K σ : Type} [Field K] [AddCommGroup σ] [Module K σ]
    (f : K → σ → σ) (t : K) (s : σ) (h : K) :
    rk4_step f t s h =
      s + (6 : K)⁻¹ •
        (h • f t s
          + (2 : K) • (h • f (t + h / 2) (s + (2 : K)⁻¹ • (h • f t s)))
          + (2 : K) •
              (h • f (t + h / 2)
                (s + (2 : K)⁻¹ • (h • f (t + h / 2) (s + (2 : K)⁻¹ • (h • f t s)))))
          + h • f (t + h)
              (s + h • f (t + h / 2)
                (s + (2 : K)⁻¹ • (h • f (t + h / 2) (s + (2 : K)⁻¹ • (h • f t s)))))) :=
  rfl

/-- C9: for `f(t,x) = x`, each RK4 step with `h = 1/10` multiplies the state
by the exact rational `1 + h + h^2/2 + h^3/6 + h^4/24`, and the state after 50
steps from `x0 = 1` at `t0 = 0` is within `1e-3` of `e^5`. -/
theorem c9_rk4_accuracy :
    (∀ n : ℕ, identIter (n + 1) =
      (1 + 1 / 10 + (1 / 10 : ℚ) ^ 2 / 2 + (1 / 10 : ℚ) ^ 3 / 6
        + (1 / 10 : ℚ) ^ 4 / 24) * identIter n)
    ∧ |((identIter 50 : ℚ) : ℝ) - Real.exp 5| < 1 / 1000 := by
  constructor
  · intro n
    rw [identIter, rk4_step_ident]
  · rw [identIter_closed]
    have h5 : Real.exp 5 = Real.exp 1 ^ 5 := by
      rw [← Real.exp_nat_mul]
      norm_num
    have hlow : (2.7182818283 : ℝ) ^ 5 < Real.exp 1 ^ 5 :=
      pow_lt_pow_left₀ Real.exp_one_gt_d9 (by norm_num) (by norm_num)
    have hhigh : Real.exp 1 ^ 5 < (2.7182818286 : ℝ) ^ 5 :=
      pow_lt_pow_left₀ Real.exp_one_lt_d9 (le_of_lt (Real.exp_pos 1)) (by norm_num)
    rw [abs_sub_lt_iff, h5]
    push_cast
    constructor
    · nlinarith [hlow, sq_nonneg ((2.7182818283 : ℝ) ^ 5)]
    · nlinarith [hhigh]

/-- C1 (amended): for step `h > 0` and duration `t_final ≥ 0`, every array
returned by the planar `run`, the spherical `run` (either branch) and
`run_cartesian` has the identical length `numSamples t_final h`, which in
exact arithmetic equals `ceil(t_final/h) + 1` (this is `floor(t_final/h)+1`
exactly when `h` divides `t_final`, and `floor(t_final/h)+2` otherwise);
the first time sample is `0` and the last time sample is within one step
`h` of `t_final`. -/
theorem c1_array_lengths (L1 phi1 g1 b1 t_final h : ℝ)
    (p : Pendulum3D.Params) (hph : p.h = h) (hpt : p.t_final = t_final)
    (hh : 0 < h) (ht : 0 ≤ t_final) :
    ((Pendulum.run L1 phi1 g1 h t_final b1).t.length = numSamples t_final h
      ∧ (Pendulum.run L1 phi1 g1 h t_final b1).phi.length = numSamples t_final h
      ∧ (Pendulum.run L1 phi1 g1 h t_final b1).omega.length = numSamples t_final h
      ∧ (Pendulum.run L1 phi1 g1 h t_final b1).energy.length = numSamples t_final h)
    ∧ ((Pendulum3D.run p).t.length = numSamples t_final h
      ∧ (Pendulum3D.run p).theta.length = numSamples t_final h
      ∧ (Pendulum3D.run p).phi.length = numSamples t_final h
      ∧ (Pendulum3D.run p).theta_dot.length = numSamples t_final h
      ∧ (Pendulum3D.run p).phi_dot.length = numSamples t_final h
      ∧ (Pendulum3D.run p).energy.length = numSamples t_final h)
    ∧ ((Pendulum3D.run_cartesian p).t.length = numSamples t_final h
      ∧ (Pendulum3D.run_cartesian p).x.length = numSamples t_final h
      ∧ (Pendulum3D.run_cartesian p).y.length = numSamples t_final h
      ∧ (Pendulum3D.run_cartesian p).z.length = numSamples t_final h
      ∧ (Pendulum3D.run_cartesian p).vx.length = numSamples t_final h
      ∧ (Pendulum3D.run_cartesian p).vy.length = numSamples t_final h
      ∧ (Pendulum3D.run_cartesian p).vz.length = numSamples t_final h
      ∧ (Pendulum3D.run_cartesian p).energy.length = numSamples t_final h)
    ∧ numSamples t_final h = (⌈t_final / h⌉).toNat + 1
    ∧ (Pendulum.run L1 phi1 g1 h t_final b1).t.head? = some 0
    ∧ (Pendulum3D.run p).t.head? = some 0
    ∧ (Pendulum3D.run_cartesian p).t.head? = some 0
    ∧ (Pendulum.run L1 phi1 g1 h t_final b1).t.getLast?
        = some (tGrid h (numSamples t_final h - 1))
    ∧ (Pendulum3D.run p).t.getLast? = some (tGrid h (numSamples t_final h - 1))
    ∧ (Pendulum3D.run_cartesian p).t.getLast?
        = some (tGrid h (numSamples t_final h - 1))
    ∧ |tGrid h (numSamples t_final h - 1) - t_final| < h := by
  subst hph hpt
  have hN : 0 < numSamples p.t_final p.h := numSamples_pos _ _ hh ht
  have hhead : ((List.range (numSamples p.t_final p.h)).map (tGrid p.h)).head?
      = some 0 := by
    rw [head_map_range _ _ hN]
    simp [tGrid]
  have hlast : ((List.range (numSamples p.t_final p.h)).map (tGrid p.h)).getLast?
      = some (tGrid p.h (numSamples p.t_final p.h - 1)) :=
    getLast_map_range _ _ hN
  have hsph : (Pendulum3D.run p).t
        = (List.range (numSamples p.t_final p.h)).map (tGrid p.h)
      ∧ (Pendulum3D.run p).theta.length = numSamples p.t_final p.h
      ∧ (Pendulum3D.run p).phi.length = numSamples p.t_final p.h
      ∧ (Pendulum3D.run p).theta_dot.length = numSamples p.t_final p.h
      ∧ (Pendulum3D.run p).phi_dot.length = numSamples p.t_final p.h
      ∧ (Pendulum3D.run p).energy.length = numSamples p.t_final p.h := by
    unfold Pendulum3D.run
    split <;> simp [Pendulum3D.run_cartesian]
  refine ⟨⟨by simp [Pendulum.run], by simp [Pendulum.run], by simp [Pendulum.run],
      by simp [Pendulum.run]⟩,
    ⟨by rw [hsph.1]; simp, hsph.2.1, hsph.2.2.1, hsph.2.2.2.1, hsph.2.2.2.2.1,
      hsph.2.2.2.2.2⟩,
    ⟨by simp [Pendulum3D.run_cartesian], by simp [Pendulum3D.run_cartesian],
      by simp [Pendulum3D.run_cartesian], by simp [Pendulum3D.run_cartesian],
      by simp [Pendulum3D.run_cartesian], by simp [Pendulum3D.run_cartesian],
      by simp [Pendulum3D.run_cartesian], by simp [Pendulum3D.run_cartesian]⟩,
    numSamples_eq _ _ hh ht,
    by simpa [Pendulum.run] using hhead,
    by rw [hsph.1]; exact hhead,
    by simpa [Pendulum3D.run_cartesian] using hhead,
    by simpa [Pendulum.run] using hlast,
    by rw [hsph.1]; exact hlast,
    by simpa [Pendulum3D.run_cartesian] using hlast,
    tGrid_last_close _ _ hh ht⟩

/-- C1 witness: the amended array-shape theorem instantiated at
`t_final = 1`, `h = 2/3` and default-like parameters. -/
theorem c1_array_lengths_witness :
    (0 : ℝ) < 2 / 3 ∧ (0 : ℝ) ≤ 1
      ∧ (Pendulum.run 1 (1 / 10) (981 / 100) (2 / 3) 1 0).t.length
          = numSamples 1 (2 / 3) :=
  ⟨by norm_num, by norm_num,
    (c1_array_lengths 1 (1 / 10) (981 / 100) 0 1 (2 / 3)
      ⟨1, 1 / 10, 0, 0, 0, 981 / 100, 2 / 3, 1, 0, 0, 0, 0⟩ rfl rfl
      (by norm_num) (by norm_num)).1.1⟩

/-- C1 counterexample: with `t_final = 1` and `h = 2/3` the planar `run`
returns arrays of length 3 (`ceil(1/(2/3)) + 1`), not
`floor(1/(2/3)) + 1 = 2` as the claim states. -/
theorem c1_counterexample :
    (Pendulum.run 1 (1 / 10) (981 / 100) (2 / 3) 1 0).t.length
      ≠ Nat.floor ((1 : ℝ) / (2 / 3)) + 1 := by
  have h1 : numSamples 1 (2 / 3) = 3 := by
    unfold numSamples
    have hq : ((1 : ℝ) + 2 / 3) / (2 / 3) = 5 / 2 := by norm_num
    rw [hq]
    have hc : ⌈(5 / 2 : ℝ)⌉ = 3 := by
      rw [Int.ceil_eq_iff]
      norm_num
    rw [hc]
    rfl
  have h2 : Nat.floor ((1 : ℝ) / (2 / 3)) = 1 := by
    rw [Nat.floor_eq_iff (by norm_num)]
    norm_num
  have hlen : (Pendulum.run 1 (1 / 10) (981 / 100) (2 / 3) 1 0).t.length = 3 := by
    simp [Pendulum.run, h1]
  rw [hlen, h2]
  decide

/-- C8: the planar model integrates `phi' = omega`,
`omega' = -(g/L)*sin(phi) - drag*omega*|omega|` from the seed `(phi0, 0)`
(initial angular velocity always zero), records `phi` and `omega` at every
sample including the initial one, and `energy[i]` is computed from `phi[i]`
and `omega[i]` as `0.5*L^2*omega^2 + g*L*(1 - cos(phi))` for every `i`. -/
theorem c8_planar_model (L phi0 g h t_final b : ℝ) :
    Pendulum.state L phi0 g h b 0 = (phi0, 0)
    ∧ (∀ i : ℕ, Pendulum.state L phi0 g h b (i + 1) =
        rk4_step (fun _ s => (s.2, -(g / L) * Real.sin s.1 - b * s.2 * |s.2|))
          ((i : ℝ) * h) (Pendulum.state L phi0 g h b i) h)
    ∧ (Pendulum.run L phi0 g h t_final b).phi =
        (List.range (numSamples t_final h)).map
          (fun i => (Pendulum.state L phi0 g h b i).1)
    ∧ (Pendulum.run L phi0 g h t_final b).omega =
        (List.range (numSamples t_final h)).map
          (fun i => (Pendulum.state L phi0 g h b i).2)
    ∧ (Pendulum.run L phi0 g h t_final b).energy =
        List.zipWith (fun ph w => 0.5 * L ^ 2 * w ^ 2 + g * L * (1 - Real.cos ph))
          (Pendulum.run L phi0 g h t_final b).phi
          (Pendulum.run L phi0 g h t_final b).omega := by
  refine ⟨rfl, fun i => rfl, rfl, rfl, ?_⟩
  simp only [Pendulum.run]
  rw [zipWith_map_of_map]
  rfl

/-- C7: the spherical derivative used by the non-delegated integration maps
`(theta, psi, theta_dot, psi_dot)` to `(theta_dot, psi_dot,
sin(theta)*cos(theta)*psi_dot^2 - (g/L)*sin(theta) - drag*theta_dot*|theta_dot|,
-2*theta_dot*psi_dot/tan(theta) - drag*psi_dot*|psi_dot|)`. -/
theorem c7_spherical_derivative (L g b t theta psi theta_dot psi_dot : ℝ) :
    Pendulum3D.sphericalDeriv L g b t ![theta, psi, theta_dot, psi_dot] =
      ![theta_dot, psi_dot,
        Real.sin theta * Real.cos theta * psi_dot ^ 2
          - (g / L) * Real.sin theta - b * theta_dot * |theta_dot|,
        -2 * theta_dot * psi_dot / Real.tan theta - b * psi_dot * |psi_dot|] := by
  funext i
  fin_cases i <;> simp [Pendulum3D.sphericalDeriv]

/-- C6: on the non-delegated path (`|sin(theta0)| >= 1e-6`, so no warning),
a nonzero impulse is projected onto the local theta/psi directions and
added as `f_theta/L` to `theta_dot0` and `f_psi/(L*sin(theta0))` to
`psi_dot0`; with `L > 0` the denominator `L*sin(theta0)` of that division
is nonzero. -/
theorem c6_impulse_projection (p : Pendulum3D.Params)
    (hsin : 1e-6 ≤ |Real.sin p.theta0|) (hL : 0 < p.L)
    (hF : p.Fx ≠ 0 ∨ p.Fy ≠ 0 ∨ p.Fz ≠ 0) :
    (Pendulum3D.run p).warned = false
    ∧ Pendulum3D.sphericalInit p =
        ![p.theta0, p.phi0,
          p.theta_dot0 + (p.Fx * Real.cos p.theta0 * Real.cos p.phi0
            + p.Fy * Real.cos p.theta0 * Real.sin p.phi0
            + p.Fz * Real.sin p.theta0) / p.L,
          p.phi_dot0 + (-p.Fx * Real.sin p.phi0 + p.Fy * Real.cos p.phi0)
            / (p.L * Real.sin p.theta0)]
    ∧ p.L * Real.sin p.theta0 ≠ 0 := by
  have hns : ¬(|Real.sin p.theta0| < 1e-6) := not_lt.mpr hsin
  have hsin0 : Real.sin p.theta0 ≠ 0 := by
    intro h0
    rw [h0, abs_zero] at hsin
    norm_num at hsin
  refine ⟨?_, ?_, mul_ne_zero (ne_of_gt hL) hsin0⟩
  · simp [Pendulum3D.run, hns]
  · unfold Pendulum3D.sphericalInit
    rw [if_pos hF]

/-- C6 witness: the impulse-projection theorem at `theta0 = pi/2`, `L = 1`,
impulse `(1, 0, 0)`. -/
theorem c6_impulse_projection_witness :
    (1e-6 : ℝ) ≤ |Real.sin (Real.pi / 2)| ∧ (0 : ℝ) < 1
      ∧ ((1 : ℝ) ≠ 0 ∨ (0 : ℝ) ≠ 0 ∨ (0 : ℝ) ≠ 0)
      ∧ (1 : ℝ) * Real.sin (Real.pi / 2) ≠ 0 :=
  ⟨by rw [Real.sin_pi_div_two]; norm_num, by norm_num, Or.inl (by norm_num),
    (c6_impulse_projection
      ⟨1, Real.pi / 2, 0, 0, 0, 981 / 100, 1 / 100, 10, 0, 1, 0, 0⟩
      (by rw [show (⟨1, Real.pi / 2, 0, 0, 0, 981 / 100, 1 / 100, 10, 0, 1, 0,
          0⟩ : Pendulum3D.Params).theta0 = Real.pi / 2 from rfl,
        Real.sin_pi_div_two]; norm_num)
      (by norm_num) (Or.inl (by norm_num))).2.2⟩

/-- C5 divergence witness: at `L = 1`, `theta0 = pi/2`, `theta_dot0 = 1`,
`psi0 = psi_dot0 = 0` and no impulse, `run_cartesian` records the initial
`vz` component as `-L*theta_dot0*sin(theta0) = -1`, whereas the time
derivative of the position `z(t) = -L*cos(theta0 + theta_dot0*t)` at
`t = 0` — the chain rule the claim (and spec) prescribe — equals `+1`. -/
theorem c5_vz0_sign :
    Pendulum3D.cartesianInit
      ⟨1, Real.pi / 2, 0, 1, 0, 981 / 100, 1 / 100, 10, 0, 0, 0, 0⟩ 5 = -1
    ∧ deriv (fun s : ℝ => -(1 : ℝ) * Real.cos (Real.pi / 2 + 1 * s)) 0 = 1 := by
  constructor
  · simp [Pendulum3D.cartesianInit, Real.sin_pi_div_two, Real.cos_pi_div_two]
  · have h1 : HasDerivAt (fun s : ℝ => Real.pi / 2 + 1 * s) 1 0 := by
      simpa using ((hasDerivAt_id (0 : ℝ)).const_mul (1 : ℝ)).const_add
        (Real.pi / 2)
    have h2 : HasDerivAt (fun s : ℝ => Real.cos (Real.pi / 2 + 1 * s))
        (-Real.sin (Real.pi / 2 + 1 * 0) * 1) 0 := by
      simpa [Function.comp] using
        (Real.hasDerivAt_cos (Real.pi / 2 + 1 * 0)).comp 0 h1
    have h3 : HasDerivAt (fun s : ℝ => -(1 : ℝ) * Real.cos (Real.pi / 2 + 1 * s))
        (-(1 : ℝ) * (-Real.sin (Real.pi / 2 + 1 * 0) * 1)) 0 := h2.const_mul _
    rw [h3.deriv]
    simp [Real.sin_pi_div_two]

/-- C10 counterexample: for `radialImpulseParams` (`theta0 = pi/4`,
`theta_dot0 = 1`, impulse `(0, 0, sqrt 2)`), the impulse has a nonzero
radial component along the initial position, yet the recorded initial
velocity has zero radial component — refuting the claimed implication. -/
theorem c10_counterexample :
    (Pendulum3D.cartesianInit radialImpulseParams 0 * radialImpulseParams.Fx
      + Pendulum3D.cartesianInit radialImpulseParams 1 * radialImpulseParams.Fy
      + Pendulum3D.cartesianInit radialImpulseParams 2 * radialImpulseParams.Fz
      ≠ 0)
    ∧ Pendulum3D.cartesianInit radialImpulseParams 0
        * Pendulum3D.cartesianInit radialImpulseParams 3
      + Pendulum3D.cartesianInit radialImpulseParams 1
        * Pendulum3D.cartesianInit radialImpulseParams 4
      + Pendulum3D.cartesianInit radialImpulseParams 2
        * Pendulum3D.cartesianInit radialImpulseParams 5 = 0 := by
  have h2 : Real.sqrt 2 * Real.sqrt 2 = 2 := Real.mul_self_sqrt (by norm_num)
  have e : Pendulum3D.cartesianInit radialImpulseParams
      = ![Real.sqrt 2 / 2, 0, -(Real.sqrt 2 / 2), Real.sqrt 2 / 2, 0,
          -(Real.sqrt 2 / 2) + Real.sqrt 2] := by
    simp [radialImpulseParams, Pendulum3D.cartesianInit,
      Real.sin_pi_div_four, Real.cos_pi_div_four]
  have hFx : radialImpulseParams.Fx = 0 := rfl
  have hFy : radialImpulseParams.Fy = 0 := rfl
  have hFz : radialImpulseParams.Fz = Real.sqrt 2 := rfl
  constructor
  · rw [e, hFx, hFy, hFz]
    have v1 : (![Real.sqrt 2 / 2, 0, -(Real.sqrt 2 / 2), Real.sqrt 2 / 2, 0,
          -(Real.sqrt 2 / 2) + Real.sqrt 2] : Fin 6 → ℝ) 0 * 0
        + (![Real.sqrt 2 / 2, 0, -(Real.sqrt 2 / 2), Real.sqrt 2 / 2, 0,
          -(Real.sqrt 2 / 2) + Real.sqrt 2] : Fin 6 → ℝ) 1 * 0
        + (![Real.sqrt 2 / 2, 0, -(Real.sqrt 2 / 2), Real.sqrt 2 / 2, 0,
          -(Real.sqrt 2 / 2) + Real.sqrt 2] : Fin 6 → ℝ) 2 * Real.sqrt 2
        = -1 := by
      simp only [Matrix.cons_val_zero, Matrix.cons_val_one, Matrix.head_cons,
        Matrix.cons_val_two, Matrix.tail_cons]
      linear_combination (-(1 : ℝ) / 2) * h2
    rw [v1]
    norm_num
  · rw [e]
    simp only [Matrix.cons_val_zero, Matrix.cons_val_one, Matrix.head_cons,
      Matrix.cons_val_two, Matrix.cons_val_three, Matrix.cons_val_four,
      Matrix.tail_cons, vec6_at4, vec6_at5]
    ring

/-- C10 (amended): sample 0 of `run_cartesian` records the raw converted
initial state with the impulse added verbatim to the velocity (no
projection); its position lies exactly on the sphere of radius `L`; the
radial component of the recorded initial velocity equals
`2*L^2*theta_dot0*sin(theta0)*cos(theta0)` plus the radial component of
the impulse — so when `theta_dot0 = 0` it reduces to exactly the impulse's
radial component (and is then nonzero iff the impulse's radial component
is). -/
theorem c10_initial_sample (p : Pendulum3D.Params)
    (hh : 0 < p.h) (ht : 0 ≤ p.t_final) :
    ((Pendulum3D.run_cartesian p).x.head? = some (Pendulum3D.cartesianInit p 0)
      ∧ (Pendulum3D.run_cartesian p).y.head? = some (Pendulum3D.cartesianInit p 1)
      ∧ (Pendulum3D.run_cartesian p).z.head? = some (Pendulum3D.cartesianInit p 2)
      ∧ (Pendulum3D.run_cartesian p).vx.head? = some (Pendulum3D.cartesianInit p 3)
      ∧ (Pendulum3D.run_cartesian p).vy.head? = some (Pendulum3D.cartesianInit p 4)
      ∧ (Pendulum3D.run_cartesian p).vz.head? = some (Pendulum3D.cartesianInit p 5))
    ∧ Pendulum3D.cartesianInit p 0 ^ 2 + Pendulum3D.cartesianInit p 1 ^ 2
        + Pendulum3D.cartesianInit p 2 ^ 2 = p.L ^ 2
    ∧ Pendulum3D.cartesianInit p 0 * Pendulum3D.cartesianInit p 3
        + Pendulum3D.cartesianInit p 1 * Pendulum3D.cartesianInit p 4
        + Pendulum3D.cartesianInit p 2 * Pendulum3D.cartesianInit p 5
      = 2 * p.L ^ 2 * p.theta_dot0 * Real.sin p.theta0 * Real.cos p.theta0
        + (Pendulum3D.cartesianInit p 0 * p.Fx
          + Pendulum3D.cartesianInit p 1 * p.Fy
          + Pendulum3D.cartesianInit p 2 * p.Fz)
    ∧ (p.theta_dot0 = 0 →
        Pendulum3D.cartesianInit p 0 * Pendulum3D.cartesianInit p 3
          + Pendulum3D.cartesianInit p 1 * Pendulum3D.cartesianInit p 4
          + Pendulum3D.cartesianInit p 2 * Pendulum3D.cartesianInit p 5
        = Pendulum3D.cartesianInit p 0 * p.Fx
          + Pendulum3D.cartesianInit p 1 * p.Fy
          + Pendulum3D.cartesianInit p 2 * p.Fz) := by
  have hN := numSamples_pos p.t_final p.h hh ht
  have i0 : Pendulum3D.cartesianInit p 0
      = p.L * Real.sin p.theta0 * Real.cos p.phi0 := rfl
  have i1 : Pendulum3D.cartesianInit p 1
      = p.L * Real.sin p.theta0 * Real.sin p.phi0 := rfl
  have i2 : Pendulum3D.cartesianInit p 2 = -p.L * Real.cos p.theta0 := rfl
  have i3 : Pendulum3D.cartesianInit p 3
      = p.L * (p.theta_dot0 * Real.cos p.theta0 * Real.cos p.phi0
        - p.phi_dot0 * Real.sin p.theta0 * Real.sin p.phi0) + p.Fx := rfl
  have i4 : Pendulum3D.cartesianInit p 4
      = p.L * (p.theta_dot0 * Real.cos p.theta0 * Real.sin p.phi0
        + p.phi_dot0 * Real.sin p.theta0 * Real.cos p.phi0) + p.Fy := rfl
  have i5 : Pendulum3D.cartesianInit p 5
      = -p.L * p.theta_dot0 * Real.sin p.theta0 + p.Fz := rfl
  have hpsi := Real.sin_sq_add_cos_sq p.phi0
  have hth := Real.sin_sq_add_cos_sq p.theta0
  have hrad : Pendulum3D.cartesianInit p 0 * Pendulum3D.cartesianInit p 3
      + Pendulum3D.cartesianInit p 1 * Pendulum3D.cartesianInit p 4
      + Pendulum3D.cartesianInit p 2 * Pendulum3D.cartesianInit p 5
      = 2 * p.L ^ 2 * p.theta_dot0 * Real.sin p.theta0 * Real.cos p.theta0
        + (Pendulum3D.cartesianInit p 0 * p.Fx
          + Pendulum3D.cartesianInit p 1 * p.Fy
          + Pendulum3D.cartesianInit p 2 * p.Fz) := by
    rw [i0, i1, i2, i3, i4, i5]
    linear_combination
      (p.L ^ 2 * p.theta_dot0 * Real.sin p.theta0 * Real.cos p.theta0) * hpsi
  refine ⟨⟨?_, ?_, ?_, ?_, ?_, ?_⟩, ?_, hrad, ?_⟩
  · unfold Pendulum3D.run_cartesian
    rw [head_map_range _ _ hN]
    rfl
  · unfold Pendulum3D.run_cartesian
    rw [head_map_range _ _ hN]
    rfl
  · unfold Pendulum3D.run_cartesian
    rw [head_map_range _ _ hN]
    rfl
  · unfold Pendulum3D.run_cartesian
    rw [head_map_range _ _ hN]
    rfl
  · unfold Pendulum3D.run_cartesian
    rw [head_map_range _ _ hN]
    rfl
  · unfold Pendulum3D.run_cartesian
    rw [head_map_range _ _ hN]
    rfl
  · rw [i0, i1, i2]
    linear_combination (p.L ^ 2 * Real.sin p.theta0 ^ 2) * hpsi + p.L ^ 2 * hth
  · intro h0
    rw [hrad, h0]
    ring

/-- C10 witness: the amended initial-sample theorem instantiated at the
radial-impulse parameter set. -/
theorem c10_initial_sample_witness :
    (0 : ℝ) < radialImpulseParams.h ∧ (0 : ℝ) ≤ radialImpulseParams.t_final
      ∧ Pendulum3D.cartesianInit radialImpulseParams 0 ^ 2
        + Pendulum3D.cartesianInit radialImpulseParams 1 ^ 2
        + Pendulum3D.cartesianInit radialImpulseParams 2 ^ 2
        = radialImpulseParams.L ^ 2 :=
  ⟨by norm_num [radialImpulseParams], by norm_num [radialImpulseParams],
    (c10_initial_sample radialImpulseParams (by norm_num [radialImpulseParams])
      (by norm_num [radialImpulseParams])).2.1⟩

/-- Helper: the constraint projection puts the position exactly on the
sphere of radius `L` and makes the velocity exactly tangent, provided the
pre-projection position is not the origin and `L` is nonzero. -/
theorem projectState_inv (L : ℝ) (hL : L ≠ 0) (s : Fin 6 → ℝ)
    (hnz : s 0 ^ 2 + s 1 ^ 2 + s 2 ^ 2 ≠ 0) :
    (Pendulum3D.projectState L s 0 ^ 2 + Pendulum3D.projectState L s 1 ^ 2
      + Pendulum3D.projectState L s 2 ^ 2 = L ^ 2)
    ∧ (Pendulum3D.projectState L s 0 * Pendulum3D.projectState L s 3
      + Pendulum3D.projectState L s 1 * Pendulum3D.projectState L s 4
      + Pendulum3D.projectState L s 2 * Pendulum3D.projectState L s 5 = 0) := by
  have hS : 0 ≤ s 0 ^ 2 + s 1 ^ 2 + s 2 ^ 2 := by positivity
  have hSpos : 0 < s 0 ^ 2 + s 1 ^ 2 + s 2 ^ 2 := lt_of_le_of_ne hS (Ne.symm hnz)
  have hn2 : Real.sqrt (s 0 ^ 2 + s 1 ^ 2 + s 2 ^ 2) ^ 2
      = s 0 ^ 2 + s 1 ^ 2 + s 2 ^ 2 := Real.sq_sqrt hS
  have hn0 : Real.sqrt (s 0 ^ 2 + s 1 ^ 2 + s 2 ^ 2) ≠ 0 := by
    rw [Real.sqrt_ne_zero']
    exact hSpos
  set n := Real.sqrt (s 0 ^ 2 + s 1 ^ 2 + s 2 ^ 2) with hn
  have p0 : Pendulum3D.projectState L s 0 = L * s 0 / n := rfl
  have p1 : Pendulum3D.projectState L s 1 = L * s 1 / n := rfl
  have p2 : Pendulum3D.projectState L s 2 = L * s 2 / n := rfl
  have p3 : Pendulum3D.projectState L s 3
      = s 3 - ((L * s 0 / n) * s 3 + (L * s 1 / n) * s 4 + (L * s 2 / n) * s 5)
        / L ^ 2 * (L * s 0 / n) := rfl
  have p4 : Pendulum3D.projectState L s 4
      = s 4 - ((L * s 0 / n) * s 3 + (L * s 1 / n) * s 4 + (L * s 2 / n) * s 5)
        / L ^ 2 * (L * s 1 / n) := rfl
  have p5 : Pendulum3D.projectState L s 5
      = s 5 - ((L * s 0 / n) * s 3 + (L * s 1 / n) * s 4 + (L * s 2 / n) * s 5)
        / L ^ 2 * (L * s 2 / n) := rfl
  have hL2 : L ^ 2 ≠ 0 := pow_ne_zero 2 hL
  have hkey : (L * s 0 / n) ^ 2 + (L * s 1 / n) ^ 2 + (L * s 2 / n) ^ 2
      = L ^ 2 := by
    have hexp : (L * s 0 / n) ^ 2 + (L * s 1 / n) ^ 2 + (L * s 2 / n) ^ 2
        = L ^ 2 * (s 0 ^ 2 + s 1 ^ 2 + s 2 ^ 2) / n ^ 2 := by
      ring
    rw [hexp, hn2, mul_div_assoc, div_self hnz, mul_one]
  refine ⟨by rw [p0, p1, p2]; exact hkey, ?_⟩
  rw [p0, p1, p2, p3, p4, p5]
  have hexp2 : L * s 0 / n * (s 3
        - (L * s 0 / n * s 3 + L * s 1 / n * s 4 + L * s 2 / n * s 5) / L ^ 2
          * (L * s 0 / n))
      + L * s 1 / n * (s 4
        - (L * s 0 / n * s 3 + L * s 1 / n * s 4 + L * s 2 / n * s 5) / L ^ 2
          * (L * s 1 / n))
      + L * s 2 / n * (s 5
        - (L * s 0 / n * s 3 + L * s 1 / n * s 4 + L * s 2 / n * s 5) / L ^ 2
          * (L * s 2 / n))
      = (L * s 0 / n * s 3 + L * s 1 / n * s 4 + L * s 2 / n * s 5)
        - (L * s 0 / n * s 3 + L * s 1 / n * s 4 + L * s 2 / n * s 5) / L ^ 2
          * ((L * s 0 / n) ^ 2 + (L * s 1 / n) ^ 2 + (L * s 2 / n) ^ 2) := by
    ring
  rw [hexp2, hkey, div_mul_cancel₀ _ hL2, sub_self]

/-- C3: with `L > 0`, and assuming the pre-projection position after each
RK4 step is not the zero vector, every recorded `run_cartesian` sample of
index `i >= 1` satisfies `x^2 + y^2 + z^2 = L^2` exactly and has zero
radial velocity component `x*vx + y*vy + z*vz = 0`, because each such
sample is the constraint projection of the RK4 step result; the returned
series are exactly these samples. -/
theorem c3_constraint_projection (p : Pendulum3D.Params) (hL : 0 < p.L)
    (hnz : ∀ i : ℕ,
      rk4_step (Pendulum3D.cartesianDeriv p.L p.g p.b) (tGrid p.h i)
          (Pendulum3D.cartesianState p i) p.h 0 ^ 2
        + rk4_step (Pendulum3D.cartesianDeriv p.L p.g p.b) (tGrid p.h i)
            (Pendulum3D.cartesianState p i) p.h 1 ^ 2
        + rk4_step (Pendulum3D.cartesianDeriv p.L p.g p.b) (tGrid p.h i)
            (Pendulum3D.cartesianState p i) p.h 2 ^ 2 ≠ 0) :
    ((Pendulum3D.run_cartesian p).x
        = (List.range (numSamples p.t_final p.h)).map
            (fun i => Pendulum3D.cartesianState p i 0)
      ∧ (Pendulum3D.run_cartesian p).y
        = (List.range (numSamples p.t_final p.h)).map
            (fun i => Pendulum3D.cartesianState p i 1)
      ∧ (Pendulum3D.run_cartesian p).z
        = (List.range (numSamples p.t_final p.h)).map
            (fun i => Pendulum3D.cartesianState p i 2)
      ∧ (Pendulum3D.run_cartesian p).vx
        = (List.range (numSamples p.t_final p.h)).map
            (fun i => Pendulum3D.cartesianState p i 3)
      ∧ (Pendulum3D.run_cartesian p).vy
        = (List.range (numSamples p.t_final p.h)).map
            (fun i => Pendulum3D.cartesianState p i 4)
      ∧ (Pendulum3D.run_cartesian p).vz
        = (List.range (numSamples p.t_final p.h)).map
            (fun i => Pendulum3D.cartesianState p i 5))
    ∧ ∀ i : ℕ, 1 ≤ i →
        (Pendulum3D.cartesianState p i 0 ^ 2 + Pendulum3D.cartesianState p i 1 ^ 2
            + Pendulum3D.cartesianState p i 2 ^ 2 = p.L ^ 2)
        ∧ (Pendulum3D.cartesianState p i 0 * Pendulum3D.cartesianState p i 3
            + Pendulum3D.cartesianState p i 1 * Pendulum3D.cartesianState p i 4
            + Pendulum3D.cartesianState p i 2 * Pendulum3D.cartesianState p i 5
            = 0) := by
  refine ⟨⟨rfl, rfl, rfl, rfl, rfl, rfl⟩, ?_⟩
  intro i hi
  obtain ⟨j, rfl⟩ : ∃ j, i = j + 1 := ⟨i - 1, by omega⟩
  exact projectState_inv p.L (ne_of_gt hL) _ (hnz j)

/-- Helper: an RK4 step leaves a state fixed when the derivative vanishes
at that state at every time. -/
theorem rk4_step_fixed {K σ : Type} [Field K] [AddCommGroup σ] [Module K σ]
    (f : K → σ → σ) (t h : K) (s : σ) (hf : ∀ u, f u s = 0) :
    rk4_step f t s h = s := by
  simp [rk4_step, hf]

/-- Helper: the initial Cartesian state of the equilibrium run. -/
theorem equilibriumInit :
    Pendulum3D.cartesianInit equilibriumParams = ![1, 0, 0, 0, 0, 0] := by
  funext i
  fin_cases i <;>
    simp [Pendulum3D.cartesianInit, equilibriumParams, Real.sin_pi_div_two,
      Real.cos_pi_div_two]

/-- Helper: the Cartesian derivative vanishes at the equilibrium state. -/
theorem equilibriumDeriv (t : ℝ) :
    Pendulum3D.cartesianDeriv equilibriumParams.L equilibriumParams.g
      equilibriumParams.b t ![1, 0, 0, 0, 0, 0] = 0 := by
  funext i
  fin_cases i <;>
    simp [Pendulum3D.cartesianDeriv, equilibriumParams]

/-- Helper: the constraint projection fixes the equilibrium state. -/
theorem equilibriumProject :
    Pendulum3D.projectState equilibriumParams.L ![1, 0, 0, 0, 0, 0]
      = ![1, 0, 0, 0, 0, 0] := by
  funext i
  fin_cases i <;>
    simp [Pendulum3D.projectState, equilibriumParams]

/-- Helper: every sample of the equilibrium run is the equilibrium state. -/
theorem equilibriumState (i : ℕ) :
    Pendulum3D.cartesianState equilibriumParams i = ![1, 0, 0, 0, 0, 0] := by
  induction i with
  | zero => exact equilibriumInit
  | succ j ih =>
      have hstep : Pendulum3D.cartesianState equilibriumParams (j + 1)
          = Pendulum3D.projectState equilibriumParams.L
              (rk4_step
                (Pendulum3D.cartesianDeriv equilibriumParams.L
                  equilibriumParams.g equilibriumParams.b)
                (tGrid equilibriumParams.h j)
                (Pendulum3D.cartesianState equilibriumParams j)
                equilibriumParams.h) := rfl
      rw [hstep, ih, rk4_step_fixed _ _ _ _ equilibriumDeriv, equilibriumProject]

/-- C3 witness: the constraint-projection theorem instantiated at the
equilibrium parameter set, where every pre-projection position is the unit
vector `(1, 0, 0)`. -/
theorem c3_constraint_projection_witness :
    (0 : ℝ) < equilibriumParams.L
    ∧ (∀ i : ℕ,
        rk4_step (Pendulum3D.cartesianDeriv equilibriumParams.L
            equilibriumParams.g equilibriumParams.b)
            (tGrid equilibriumParams.h i)
            (Pendulum3D.cartesianState equilibriumParams i)
            equilibriumParams.h 0 ^ 2
          + rk4_step (Pendulum3D.cartesianDeriv equilibriumParams.L
              equilibriumParams.g equilibriumParams.b)
              (tGrid equilibriumParams.h i)
              (Pendulum3D.cartesianState equilibriumParams i)
              equilibriumParams.h 1 ^ 2
          + rk4_step (Pendulum3D.cartesianDeriv equilibriumParams.L
              equilibriumParams.g equilibriumParams.b)
              (tGrid equilibriumParams.h i)
              (Pendulum3D.cartesianState equilibriumParams i)
              equilibriumParams.h 2 ^ 2 ≠ 0)
    ∧ (Pendulum3D.cartesianState equilibriumParams 1 0 ^ 2
        + Pendulum3D.cartesianState equilibriumParams 1 1 ^ 2
        + Pendulum3D.cartesianState equilibriumParams 1 2 ^ 2
        = equilibriumParams.L ^ 2
      ∧ Pendulum3D.cartesianState equilibriumParams 1 0
          * Pendulum3D.cartesianState equilibriumParams 1 3
        + Pendulum3D.cartesianState equilibriumParams 1 1
          * Pendulum3D.cartesianState equilibriumParams 1 4
        + Pendulum3D.cartesianState equilibriumParams 1 2
          * Pendulum3D.cartesianState equilibriumParams 1 5 = 0) := by
  have hL : (0 : ℝ) < equilibriumParams.L := by
    norm_num [equilibriumParams]
  have hnz : ∀ i : ℕ,
      rk4_step (Pendulum3D.cartesianDeriv equilibriumParams.L
          equilibriumParams.g equilibriumParams.b)
          (tGrid equilibriumParams.h i)
          (Pendulum3D.cartesianState equilibriumParams i)
          equilibriumParams.h 0 ^ 2
        + rk4_step (Pendulum3D.cartesianDeriv equilibriumParams.L
            equilibriumParams.g equilibriumParams.b)
            (tGrid equilibriumParams.h i)
            (Pendulum3D.cartesianState equilibriumParams i)
            equilibriumParams.h 1 ^ 2
        + rk4_step (Pendulum3D.cartesianDeriv equilibriumParams.L
            equilibriumParams.g equilibriumParams.b)
            (tGrid equilibriumParams.h i)
            (Pendulum3D.cartesianState equilibriumParams i)
            equilibriumParams.h 2 ^ 2 ≠ 0 := by
    intro i
    rw [equilibriumState i, rk4_step_fixed _ _ _ _ equilibriumDeriv]
    norm_num
  exact ⟨hL, hnz,
    (c3_constraint_projection equilibriumParams hL hnz).2 1 le_rfl⟩

/-- C4: when `|sin(theta0)| < 1e-6` the spherical `run` issues its
non-fatal warning and delegates the whole integration to `run_cartesian`
with the same parameters, returning that run's time grid and energies and
converting the Cartesian series back pointwise: `theta = arccos(-z/L)`,
`psi = atan2(y, x)`,
`theta_dot = (vx*cos(theta)*cos(psi) + vy*cos(theta)*sin(psi) - vz*sin(theta))/L`
and `psi_dot = (-vx*sin(psi) + vy*cos(psi))/(L*sin(theta))` masked to `0`
unless `|sin(theta)| > 1e-12`. -/
theorem c4_delegation (p : Pendulum3D.Params)
    (hsing : |Real.sin p.theta0| < 1e-6) :
    (Pendulum3D.run p).warned = true
    ∧ (Pendulum3D.run p).t = (Pendulum3D.run_cartesian p).t
    ∧ (Pendulum3D.run p).energy = (Pendulum3D.run_cartesian p).energy
    ∧ (Pendulum3D.run p).theta
        = (Pendulum3D.run_cartesian p).z.map
            (fun zi => Real.arccos (-zi / p.L))
    ∧ (Pendulum3D.run p).phi
        = List.zipWith (fun yi xi => Pendulum3D.atan2 yi xi)
            (Pendulum3D.run_cartesian p).y (Pendulum3D.run_cartesian p).x
    ∧ (Pendulum3D.run p).theta_dot
        = (List.range (numSamples p.t_final p.h)).map
            (fun i =>
              (Pendulum3D.cartesianState p i 3
                  * Real.cos (Real.arccos (-(Pendulum3D.cartesianState p i 2) / p.L))
                  * Real.cos (Pendulum3D.atan2 (Pendulum3D.cartesianState p i 1)
                      (Pendulum3D.cartesianState p i 0))
                + Pendulum3D.cartesianState p i 4
                  * Real.cos (Real.arccos (-(Pendulum3D.cartesianState p i 2) / p.L))
                  * Real.sin (Pendulum3D.atan2 (Pendulum3D.cartesianState p i 1)
                      (Pendulum3D.cartesianState p i 0))
                - Pendulum3D.cartesianState p i 5
                  * Real.sin (Real.arccos (-(Pendulum3D.cartesianState p i 2) / p.L)))
              / p.L)
    ∧ (Pendulum3D.run p).phi_dot
        = (List.range (numSamples p.t_final p.h)).map
            (fun i =>
              if 1e-12 < |Real.sin (Real.arccos
                  (-(Pendulum3D.cartesianState p i 2) / p.L))| then
                (-(Pendulum3D.cartesianState p i 3)
                    * Real.sin (Pendulum3D.atan2 (Pendulum3D.cartesianState p i 1)
                        (Pendulum3D.cartesianState p i 0))
                  + Pendulum3D.cartesianState p i 4
                    * Real.cos (Pendulum3D.atan2 (Pendulum3D.cartesianState p i 1)
                        (Pendulum3D.cartesianState p i 0)))
                / (p.L * Real.sin (Real.arccos
                    (-(Pendulum3D.cartesianState p i 2) / p.L)))
              else 0)
    ∧ ((Pendulum3D.run_cartesian p).x
        = (List.range (numSamples p.t_final p.h)).map
            (fun i => Pendulum3D.cartesianState p i 0)
      ∧ (Pendulum3D.run_cartesian p).y
        = (List.range (numSamples p.t_final p.h)).map
            (fun i => Pendulum3D.cartesianState p i 1)
      ∧ (Pendulum3D.run_cartesian p).z
        = (List.range (numSamples p.t_final p.h)).map
            (fun i => Pendulum3D.cartesianState p i 2)
      ∧ (Pendulum3D.run_cartesian p).vx
        = (List.range (numSamples p.t_final p.h)).map
            (fun i => Pendulum3D.cartesianState p i 3)
      ∧ (Pendulum3D.run_cartesian p).vy
        = (List.range (numSamples p.t_final p.h)).map
            (fun i => Pendulum3D.cartesianState p i 4)
      ∧ (Pendulum3D.run_cartesian p).vz
        = (List.range (numSamples p.t_final p.h)).map
            (fun i => Pendulum3D.cartesianState p i 5)) := by
  unfold Pendulum3D.run
  rw [if_pos hsing]
  refine ⟨rfl, rfl, rfl, ?_, ?_, rfl, rfl, rfl, rfl, rfl, rfl, rfl, rfl⟩
  · show (List.range (numSamples p.t_final p.h)).map (Pendulum3D.convTheta p) = _
    simp only [Pendulum3D.run_cartesian, List.map_map]
    rfl
  · show (List.range (numSamples p.t_final p.h)).map (Pendulum3D.convPsi p) = _
    simp only [Pendulum3D.run_cartesian]
    rw [zipWith_map_of_map]
    rfl

/-- C4 witness: the delegation theorem at `theta0 = 0` (exactly at the
pole). -/
theorem c4_delegation_witness :
    |Real.sin (0 : ℝ)| < 1e-6
    ∧ (Pendulum3D.run
        ⟨1, 0, 0, 0, 0, 981 / 100, 1 / 100, 10, 0, 0, 0, 0⟩).warned = true :=
  ⟨by rw [Real.sin_zero, abs_zero]; norm_num,
    (c4_delegation ⟨1, 0, 0, 0, 0, 981 / 100, 1 / 100, 10, 0, 0, 0, 0⟩
      (by rw [show (⟨1, 0, 0, 0, 0, 981 / 100, 1 / 100, 10, 0, 0, 0,
          0⟩ : Pendulum3D.Params).theta0 = 0 from rfl, Real.sin_zero,
        abs_zero]; norm_num)).1⟩

end PhysikMA
